import Mathlib

/-!
Verification of sleepycontainers: lifecycle orchestration and proxy routing

A shallow embedding of `internal/docker_client.go`, `internal/container_service.go`
and `internal/proxy.go`.

* Go maps and `sync.Map`s are association lists; a lookup takes the first entry of a key.
* The container runtime (`docker.Client`) is external: its answers are the `Runtime`
  argument of every operation, fixed for the duration of that operation.
* A returned `error` and a Go panic are kept apart (`Outcome`).
* `go f(x)` is recorded as a dispatch; the goroutine body is a function of its own.
* Clock readings (`time.Now()`, `time.Since`) are integers in nanoseconds; one operation
  reads one value of the clock, its argument `now`.
-/

namespace SleepyContainers

/-! ## Label keys (docker_client.go, lines 9-13) -/

def ContainerLabelGroupName : String := "me.zylinski.sleepycontainers.group_name"
def ContainerLabelAccessibleAt : String := "me.zylinski.sleepycontainers.accessible_at_port"
def ContainerLabelServiceName : String := "me.zylinski.sleepycontainers.service_name"

/-! ## Go maps -/

/-- A Go `map[string]string`: one entry per key. -/
abbrev Labels := List (String × String)

/-- The two-valued index expression `v, ok := m[k]`. -/
def Labels.get? (m : Labels) (k : String) : Option String := List.lookup k m

/-- The index expression `m[k]`, the zero value `""` for a missing key. -/
def Labels.get (m : Labels) (k : String) : String := (List.lookup k m).getD ""

/-- A `sync.Map` with string keys. -/
abbrev SyncMap (α : Type) := List (String × α)

namespace SyncMap

/-- Embeds `m.Load(k)`. -/
def Load {α : Type} (m : SyncMap α) (k : String) : Option α := List.lookup k m

/-- Embeds `m.Store(k, v)`: overwrite the entry of `k`, or add one. -/
def Store {α : Type} (m : SyncMap α) (k : String) (v : α) : SyncMap α :=
  if (List.lookup k m).isSome then m.map (fun e => if e.1 == k then (k, v) else e)
  else m ++ [(k, v)]

/-- Embeds `m.Delete(k)`. -/
def Delete {α : Type} (m : SyncMap α) (k : String) : SyncMap α :=
  m.filter (fun e => e.1 != k)

/-- The keys of a map, each once in a well-formed map. -/
def keys {α : Type} (m : SyncMap α) : List String := m.map Prod.fst

end SyncMap

/-! ## Data model -/

/-- The type `ServiceStatus` (container_service.go, lines 11-17). -/
inductive ServiceStatus where
  | Loading
  | ShuttingDown
  | Running
  deriving DecidableEq, Repr

/-- Errors returned by the code, one constructor per `fmt.Errorf` site. -/
inductive Err where
  /-- An error handed back by the runtime client. -/
  | runtime (msg : String)
  /-- Text "invalid gateway port %s: %w". -/
  | invalidGatewayPort (accessibleAt : String)
  /-- Text "service name is required when accessible_at is set". -/
  | serviceNameRequired
  /-- Text "no containers found with service name". -/
  | noContainersWithServiceName
  /-- Text "no containers found with label %s". -/
  | noContainersWithLabel (label : String)
  /-- Text "container for service %s not found: %w". -/
  | containerNotFound (serviceName : String) (cause : Err)
  /-- Text "service %s not accessible at any port". -/
  | notAccessible (serviceName : String)
  /-- Text "container group %s not found: %w". -/
  | groupNotFound (groupName : String) (cause : Err)
  /-- Text "container %s is already starting". -/
  | alreadyStarting (containerID : String)
  /-- Text "container %s is already stopping". -/
  | alreadyStopping (containerID : String)
  /-- The struct `WrongServiceStatusError`. -/
  | WrongServiceStatusError (ServiceName GroupName : String) (Status : ServiceStatus)
  /-- The failure of `url.Parse`: invalid port after host. -/
  | invalidURLPort (port : Int)
  /-- Text "error getting access URL for service %s: %w". -/
  | accessURLFailed (serviceName : String) (cause : Err)
  deriving DecidableEq, Repr

/-- The result of a Go call that returns `(T, error)` and may panic. -/
inductive Outcome (α : Type) where
  | ok (val : α)
  | err (e : Err)
  | panic (msg : String)
  deriving DecidableEq, Repr

/-- The fields of `docker.APIContainers` the code reads. -/
structure APIContainers where
  ID : String
  Names : List String
  State : String
  Labels : Labels
  deriving DecidableEq, Repr

/-- The struct `Container` (docker_client.go, lines 15-22). -/
structure Container where
  ID : String
  GroupName : String
  ContainerName : String
  ServiceName : String
  AccessiblePort : Int
  IsRunning : Bool
  deriving DecidableEq, Repr

/-- The struct `ContainerGroup` (docker_client.go, lines 24-27). -/
structure ContainerGroup where
  Name : String
  Containers : List Container
  deriving DecidableEq, Repr

/-- Embeds `ContainerGroup.IsAllRunning`: no member with `IsRunning` false. -/
def ContainerGroup.IsAllRunning (c : ContainerGroup) : Bool :=
  c.Containers.all (fun container => container.IsRunning)

/-- The answers of the external runtime client during one operation. -/
structure Runtime where
  /-- Embeds `client.ListContainers(All: true)`. -/
  ListContainers : Except String (List APIContainers)
  /-- Embeds `client.StartContainer(id, nil)`: `none` is a nil error. -/
  StartContainer : String → Option String
  /-- Embeds `client.StopContainer(id, 5)`: `none` is a nil error. -/
  StopContainer : String → Option String

/-! ## strconv.Atoi -/

/-- The value of an ASCII decimal digit. -/
def digitVal (c : Char) : Option Nat :=
  if 48 ≤ c.toNat ∧ c.toNat ≤ 57 then some (c.toNat - 48) else none

/-- Accumulate decimal digits, failing on any other character. -/
def parseDigits : List Char → Nat → Option Nat
  | [], acc => some acc
  | c :: cs, acc =>
    match digitVal c with
    | none => none
    | some d => parseDigits cs (acc * 10 + d)

/-- Embeds `strconv.Atoi` on a 64-bit platform: an optional sign, then at least one decimal
digit, the value within the range of `int`; `none` is a non-nil error. -/
def Atoi (s : String) : Option Int :=
  let neg : Bool := s.data.head? == some '-'
  let digits : List Char :=
    if s.data.head? == some '-' ∨ s.data.head? == some '+' then s.data.tail else s.data
  if digits.isEmpty then none
  else
    match parseDigits digits 0 with
    | none => none
    | some n =>
      let v : Int := if neg then -(n : Int) else (n : Int)
      if -(2 ^ 63 : Int) ≤ v ∧ v < (2 ^ 63 : Int) then some v else none

/-! ## DockerClient (docker_client.go) -/

/-- The loop over `container.Labels` in `parseContainer`: the pair
`(accessibleAt, serviceName)` after the loop. -/
def scanLabels (labels : Labels) : String × String :=
  labels.foldl
    (fun acc kv =>
      if kv.1 = ContainerLabelAccessibleAt then (kv.2, acc.2)
      else if kv.1 = ContainerLabelServiceName then (acc.1, kv.2)
      else acc)
    ("", "")

/-- The composite literal at the end of `parseContainer`; `container.Names[0]` panics on
an empty slice. -/
def buildContainer (container : APIContainers) (serviceName : String) (port : Int) :
    Outcome Container :=
  match container.Names with
  | [] => .panic "index out of range [0] with length 0"
  | name :: _ =>
    .ok { ID := container.ID
          GroupName := Labels.get container.Labels ContainerLabelGroupName
          ServiceName := serviceName
          AccessiblePort := port
          ContainerName := name
          IsRunning := container.State == "running" }

/-- Embeds `DockerClient.parseContainer` (docker_client.go, lines 51-83). -/
def parseContainer (container : APIContainers) : Outcome Container :=
  let accessibleAt := (scanLabels container.Labels).1
  let serviceName := (scanLabels container.Labels).2
  if accessibleAt ≠ "" then
    match Atoi accessibleAt with
    | none => .err (.invalidGatewayPort accessibleAt)
    | some port =>
      if serviceName = "" then .err .serviceNameRequired
      else buildContainer container serviceName port
  else buildContainer container serviceName (-1)

/-- Embeds `DockerClient.GetContainerByServiceName` (docker_client.go, lines 85-101). -/
def GetContainerByServiceName (rt : Runtime) (serviceName : String) : Outcome Container :=
  match rt.ListContainers with
  | .error e => .err (.runtime e)
  | .ok containers =>
    match containers.find?
        (fun container =>
          Labels.get? container.Labels ContainerLabelServiceName == some serviceName) with
    | some container => parseContainer container
    | none => .err .noContainersWithServiceName

/-- The inner loop of `GetContainerGroupByLabel`: does some label entry have the group
key and the value `label`. -/
def matchesGroup (label : String) (container : APIContainers) : Bool :=
  container.Labels.any (fun kv => kv.1 == ContainerLabelGroupName && kv.2 == label)

/-- The outer loop of `GetContainerGroupByLabel`: parse the matching containers in
listing order, returning at the first parse failure. -/
def collectGroup (label : String) : List APIContainers → Outcome (List Container)
  | [] => .ok []
  | container :: rest =>
    if matchesGroup label container then
      match parseContainer container with
      | .ok parsed =>
        match collectGroup label rest with
        | .ok more => .ok (parsed :: more)
        | .err e => .err e
        | .panic m => .panic m
      | .err e => .err e
      | .panic m => .panic m
    else collectGroup label rest

/-- Embeds `DockerClient.GetContainerGroupByLabel` (docker_client.go, lines 103-139). -/
def GetContainerGroupByLabel (rt : Runtime) (label : String) : Outcome ContainerGroup :=
  match rt.ListContainers with
  | .error e => .panic e
  | .ok containers =>
    match collectGroup label containers with
    | .ok matchingContainers =>
      if matchingContainers.length = 0 then .err (.noContainersWithLabel label)
      else .ok { Name := label, Containers := matchingContainers }
    | .err e => .err e
    | .panic m => .panic m

/-- The mutable fields of `DockerClient`; its `client` is the `Runtime` argument. -/
structure DockerClient where
  startingContainers : SyncMap Unit
  stoppingContainers : SyncMap Unit
  deriving DecidableEq, Repr

/-- Embeds `DockerClient.IsContainerStarting`. -/
def DockerClient.IsContainerStarting (c : DockerClient) (containerID : String) : Bool :=
  (SyncMap.Load c.startingContainers containerID).isSome

/-- Embeds `DockerClient.IsContainerStopping`. -/
def DockerClient.IsContainerStopping (c : DockerClient) (containerID : String) : Bool :=
  (SyncMap.Load c.stoppingContainers containerID).isSome

/-- The two commands the code issues to the runtime. -/
inductive Command where
  | start
  | stop
  deriving DecidableEq, Repr

/-- One command issued to the runtime, with the in-flight sets as they stand while the
runtime executes it. -/
structure RuntimeCall where
  cmd : Command
  containerID : String
  during : DockerClient
  deriving DecidableEq, Repr

/-- The client after `c.startingContainers.Store(containerID, struct{}{})`. -/
def DockerClient.markStarting (c : DockerClient) (containerID : String) : DockerClient :=
  { c with startingContainers := SyncMap.Store c.startingContainers containerID () }

/-- The client after `c.stoppingContainers.Store(containerID, struct{}{})`. -/
def DockerClient.markStopping (c : DockerClient) (containerID : String) : DockerClient :=
  { c with stoppingContainers := SyncMap.Store c.stoppingContainers containerID () }

/-- Embeds `DockerClient.StartContainer` (docker_client.go, lines 151-160): the returned error,
the client after the deferred `Delete`, and the runtime commands issued. -/
def DockerClient.StartContainer (rt : Runtime) (c : DockerClient) (containerID : String) :
    Option Err × DockerClient × List RuntimeCall :=
  if c.IsContainerStarting containerID then (some (.alreadyStarting containerID), c, [])
  else
    let marked := c.markStarting containerID
    let result := rt.StartContainer containerID
    let cleared : DockerClient :=
      { marked with startingContainers := SyncMap.Delete marked.startingContainers containerID }
    (result.map Err.runtime, cleared, [⟨.start, containerID, marked⟩])

/-- Embeds `DockerClient.StopContainer` (docker_client.go, lines 162-171). -/
def DockerClient.StopContainer (rt : Runtime) (c : DockerClient) (containerID : String) :
    Option Err × DockerClient × List RuntimeCall :=
  if c.IsContainerStopping containerID then (some (.alreadyStopping containerID), c, [])
  else
    let marked := c.markStopping containerID
    let result := rt.StopContainer containerID
    let cleared : DockerClient :=
      { marked with stoppingContainers := SyncMap.Delete marked.stoppingContainers containerID }
    (result.map Err.runtime, cleared, [⟨.stop, containerID, marked⟩])

/-! ## ContainerService (container_service.go) -/

/-- The struct `ServiceContainer`. -/
structure ServiceContainer where
  Container : Container
  Status : ServiceStatus
  deriving DecidableEq, Repr

/-- Embeds `ContainerService.GetServiceContainer` (container_service.go, lines 55-91): the
result, and the groups handed to `go s.startContainers(...)`. -/
def GetServiceContainer (rt : Runtime) (dc : DockerClient) (serviceName : String) :
    Outcome ServiceContainer × List ContainerGroup :=
  match GetContainerByServiceName rt serviceName with
  | .panic m => (.panic m, [])
  | .err e => (.err (.containerNotFound serviceName e), [])
  | .ok container =>
    if container.AccessiblePort = -1 then (.err (.notAccessible serviceName), [])
    else
      match GetContainerGroupByLabel rt container.GroupName with
      | .panic m => (.panic m, [])
      | .err e => (.err (.groupNotFound container.GroupName e), [])
      | .ok containerGroup =>
        match containerGroup.Containers.find? (fun member => dc.IsContainerStopping member.ID) with
        | some member => (.ok { Container := member, Status := .ShuttingDown }, [])
        | none =>
          if !containerGroup.IsAllRunning then
            (.ok { Container := container, Status := .Loading }, [containerGroup])
          else (.ok { Container := container, Status := .Running }, [])

/-- Modelled from the spec: `ContainerGroup.GetContainersByHighestPriority` is called by
`startContainers` but not defined in the sources at hand, and `Container` there carries no
priority, so the priority is the argument `priority`. The spec: "iterates members ordered
by descending priority (highest-priority first)". -/
def ContainerGroup.GetContainersByHighestPriority (priority : Container → Int)
    (group : ContainerGroup) : List Container :=
  group.Containers.insertionSort (fun a b => priority a ≥ priority b)

/-- Modelled from the spec: `ContainerGroup.GetContainersByLowestPriority` is called by
`stopContainers` but not defined in the sources at hand. The spec: "iterates members
ordered by ascending priority (lowest-priority first)". -/
def ContainerGroup.GetContainersByLowestPriority (priority : Container → Int)
    (group : ContainerGroup) : List Container :=
  group.Containers.insertionSort (fun a b => priority a ≤ priority b)

/-- The mutable fields of `ContainerService` and its configuration. -/
structure ContainerService where
  DockerClient : DockerClient
  InactivityTimeout : Int
  accessTimeMap : SyncMap Int
  shuttingDown : SyncMap Bool
  deriving DecidableEq, Repr

/-- Embeds `ContainerService.NotifyAccess`. -/
def ContainerService.NotifyAccess (s : ContainerService) (now : Int) (groupName : String) :
    ContainerService :=
  { s with accessTimeMap := SyncMap.Store s.accessTimeMap groupName now }

/-- The guard of the loop body of `startContainers` (container_service.go, line 123). -/
def startEligible (dc : DockerClient) (container : Container) : Bool :=
  !container.IsRunning && !dc.IsContainerStarting container.ID &&
    !dc.IsContainerStopping container.ID

/-- The guard of the loop body of `stopContainers` (container_service.go, line 136). -/
def stopEligible (dc : DockerClient) (container : Container) : Bool :=
  container.IsRunning && !dc.IsContainerStarting container.ID &&
    !dc.IsContainerStopping container.ID

/-- One iteration of the loop of `startContainers`; the error of `StartContainer` is only
logged. -/
def startStep (rt : Runtime) (now : Int) (groupName : String)
    (acc : ContainerService × List RuntimeCall) (container : Container) :
    ContainerService × List RuntimeCall :=
  if startEligible acc.1.DockerClient container then
    let r := acc.1.DockerClient.StartContainer rt container.ID
    ({ acc.1 with
        DockerClient := r.2.1
        accessTimeMap := SyncMap.Store acc.1.accessTimeMap groupName now },
      acc.2 ++ r.2.2)
  else acc

/-- Embeds `ContainerService.startContainers` (container_service.go, lines 121-132): the service
afterwards and the runtime commands issued, in order. -/
def startContainers (priority : Container → Int) (rt : Runtime) (now : Int)
    (s : ContainerService) (group : ContainerGroup) : ContainerService × List RuntimeCall :=
  (group.GetContainersByHighestPriority priority).foldl (startStep rt now group.Name) (s, [])

/-- One iteration of the loop of `stopContainers`; the error of `StopContainer` is only
logged. -/
def stopStep (rt : Runtime) (groupName : String)
    (acc : ContainerService × List RuntimeCall) (container : Container) :
    ContainerService × List RuntimeCall :=
  if stopEligible acc.1.DockerClient container then
    let marked := SyncMap.Store acc.1.shuttingDown groupName true
    let r := acc.1.DockerClient.StopContainer rt container.ID
    ({ acc.1 with
        DockerClient := r.2.1
        shuttingDown := SyncMap.Delete marked groupName },
      acc.2 ++ r.2.2)
  else acc

/-- Embeds `ContainerService.stopContainers` (container_service.go, lines 134-146). -/
def stopContainers (priority : Container → Int) (rt : Runtime)
    (s : ContainerService) (group : ContainerGroup) : ContainerService × List RuntimeCall :=
  (group.GetContainersByLowestPriority priority).foldl (stopStep rt group.Name) (s, [])

/-- What one pass of the cleaner has done so far. -/
structure Sweep where
  service : ContainerService
  /-- The groups handed to `stopContainers`, in order. -/
  stopped : List ContainerGroup
  /-- The runtime commands issued, in order. -/
  calls : List RuntimeCall
  deriving DecidableEq, Repr

/-- The `accessTimeMap.Range` of `InactiveContainersCleanerLoop` (container_service.go,
lines 104-116) over the entries still to visit; `time.Since(t)` is `now - t`. A panic of
`GetContainerGroupByLabel` ends the pass. -/
def cleanerRange (priority : Container → Int) (rt : Runtime) (now : Int) :
    List (String × Int) → Sweep → Outcome Sweep
  | [], st => .ok st
  | (key, lastAccessTime) :: rest, st =>
    if now - lastAccessTime > st.service.InactivityTimeout then
      match GetContainerGroupByLabel rt key with
      | .panic m => .panic m
      | .err _ => cleanerRange priority rt now rest st
      | .ok containerGroup =>
        let r := stopContainers priority rt st.service containerGroup
        let deleted : ContainerService :=
          { r.1 with accessTimeMap := SyncMap.Delete r.1.accessTimeMap key }
        cleanerRange priority rt now rest
          ⟨deleted, st.stopped ++ [containerGroup], st.calls ++ r.2⟩
    else cleanerRange priority rt now rest st

/-- One tick of `ContainerService.InactiveContainersCleanerLoop`: a pass over the access
recency map at time `now`. -/
def InactiveContainersCleanerTick (priority : Container → Int) (rt : Runtime) (now : Int)
    (s : ContainerService) : Outcome Sweep :=
  cleanerRange priority rt now s.accessTimeMap ⟨s, [], []⟩

/-- The group a pass hands to `stopContainers` at an entry of the access recency map: the
entry is older than `timeout` and its group resolves. -/
def sweptGroup (rt : Runtime) (now timeout : Int) (entry : String × Int) :
    Option ContainerGroup :=
  if now - entry.2 > timeout then
    match GetContainerGroupByLabel rt entry.1 with
    | .ok containerGroup => some containerGroup
    | _ => none
  else none

/-! ## Proxy (proxy.go) -/

/-- The result of `url.Parse` on "http://127.0.0.1:PORT". -/
structure URL where
  Scheme : String
  Host : String
  Port : Int
  deriving DecidableEq, Repr

/-- Embeds `ServiceContainer.AccessURL` (container_service.go, lines 24-26):
`url.Parse(fmt.Sprintf("http://127.0.0.1:%d", port))`. The verb `%d` writes a negative
port with a leading `-`, and `url.Parse` rejects a port that is not made of decimal digits
only ("invalid port ... after host"); a port of digits only is accepted whatever its size. -/
def ServiceContainer.AccessURL (serviceContainer : ServiceContainer) : Except Err URL :=
  if serviceContainer.Container.AccessiblePort < 0 then
    .error (.invalidURLPort serviceContainer.Container.AccessiblePort)
  else .ok ⟨"http", "127.0.0.1", serviceContainer.Container.AccessiblePort⟩

/-- The struct `ReverseProxy`; `Backend` is the target of `NewSingleHostReverseProxy`. -/
structure ReverseProxy where
  GroupName : String
  Backend : URL
  deriving DecidableEq, Repr

/-- The mutable fields of `Proxy`. -/
structure Proxy where
  ContainerService : ContainerService
  reverseProxiesMap : SyncMap ReverseProxy
  deriving DecidableEq, Repr

/-- What the proxy is seen to do. -/
inductive Event where
  /-- A call of `GetServiceContainer`. -/
  | resolve (serviceName : String)
  /-- The statement `go s.startContainers(group)`. -/
  | startGroup (group : ContainerGroup)
  /-- The call `Backend.ServeHTTP` towards a target. -/
  | forward (target : URL)
  /-- The call `http.Redirect` of the error handler. -/
  | redirect
  deriving DecidableEq, Repr

/-- Embeds `Proxy.createReverseProxy` (proxy.go, lines 68-96). -/
def Proxy.createReverseProxy (rt : Runtime) (p : Proxy) (serviceName : String) :
    Outcome ReverseProxy × List Event :=
  let r := GetServiceContainer rt p.ContainerService.DockerClient serviceName
  let events := Event.resolve serviceName :: r.2.map Event.startGroup
  match r.1 with
  | .panic m => (.panic m, events)
  | .err e => (.err e, events)
  | .ok container =>
    if container.Status ≠ .Running then
      (.err (.WrongServiceStatusError serviceName container.Container.GroupName container.Status),
        events)
    else
      match container.AccessURL with
      | .error e => (.err (.accessURLFailed serviceName e), events)
      | .ok accessURL => (.ok ⟨container.Container.GroupName, accessURL⟩, events)

/-- The `ErrorHandler` closure installed by `createReverseProxy` for `serviceName`
(proxy.go, lines 88-91): drop the cached route, then redirect. -/
def Proxy.ErrorHandler (p : Proxy) (serviceName : String) : Proxy × List Event :=
  ({ p with reverseProxiesMap := SyncMap.Delete p.reverseProxiesMap serviceName },
    [Event.redirect])

/-- Embeds `Proxy.getReverseProxy` (proxy.go, lines 49-66). -/
def Proxy.getReverseProxy (rt : Runtime) (p : Proxy) (serviceName : String) :
    Outcome ReverseProxy × Proxy × List Event :=
  match SyncMap.Load p.reverseProxiesMap serviceName with
  | some reverseProxy => (.ok reverseProxy, p, [])
  | none =>
    let r := p.createReverseProxy rt serviceName
    match r.1 with
    | .panic m => (.panic m, p, r.2)
    | .err e => (.err e, p, r.2)
    | .ok reverseProxy =>
      (.ok reverseProxy,
        { p with reverseProxiesMap := SyncMap.Store p.reverseProxiesMap serviceName reverseProxy },
        r.2)

/-- Embeds `Proxy.Handle` (proxy.go, lines 38-47). `reachable` tells whether the backend at a
target answers; when it does not, `ServeHTTP` runs the route's error handler. -/
def Proxy.Handle (rt : Runtime) (now : Int) (reachable : URL → Bool) (p : Proxy)
    (serviceName : String) : Outcome Unit × Proxy × List Event :=
  let r := p.getReverseProxy rt serviceName
  match r.1 with
  | .panic m => (.panic m, r.2.1, r.2.2)
  | .err e => (.err e, r.2.1, r.2.2)
  | .ok reverseProxy =>
    let notified : Proxy :=
      { r.2.1 with
        ContainerService := r.2.1.ContainerService.NotifyAccess now reverseProxy.GroupName }
    if reachable reverseProxy.Backend then
      (.ok (), notified, r.2.2 ++ [Event.forward reverseProxy.Backend])
    else
      let h := notified.ErrorHandler serviceName
      (.ok (), h.1, r.2.2 ++ [Event.forward reverseProxy.Backend] ++ h.2)

/-! ## The clock read inside `startContainers` -/

/-- One iteration of the loop of `startContainers` with the clock read where the code
reads it: `clock i` is the value of `time.Now()` at the `accessTimeMap.Store` of line 129
when `i` runtime commands were issued earlier in the same call. -/
def startStepAt (rt : Runtime) (clock : Nat → Int) (groupName : String)
    (acc : ContainerService × List RuntimeCall) (container : Container) :
    ContainerService × List RuntimeCall :=
  if startEligible acc.1.DockerClient container then
    let r := acc.1.DockerClient.StartContainer rt container.ID
    ({ acc.1 with
        DockerClient := r.2.1
        accessTimeMap := SyncMap.Store acc.1.accessTimeMap groupName (clock acc.2.length) },
      acc.2 ++ r.2.2)
  else acc

/-- Embeds `ContainerService.startContainers` (container_service.go, lines 121-132) with one
reading of the clock per `Store`; `startContainers` is the case of a clock that stands
still. -/
def startContainersAt (priority : Container → Int) (rt : Runtime) (clock : Nat → Int)
    (s : ContainerService) (group : ContainerGroup) : ContainerService × List RuntimeCall :=
  (group.GetContainersByHighestPriority priority).foldl
    (startStepAt rt clock group.Name) (s, [])

/-! ## Example inputs -/

/-- The labels of a reachable container: group "stack", service "web", port 8080. -/
def exWebLabels : Labels :=
  [(ContainerLabelGroupName, "stack"), (ContainerLabelServiceName, "web"),
    (ContainerLabelAccessibleAt, "8080")]

/-- A listing of group "stack": the reachable container "a" and its dependency "b". -/
def exListing (stateA stateB : String) : List APIContainers :=
  [⟨"a", ["/web"], stateA, exWebLabels⟩, ⟨"b", ["/db"], stateB, [(ContainerLabelGroupName, "stack")]⟩]

/-- A runtime that answers with `listing` and whose start and stop commands succeed. -/
def exRuntime (listing : List APIContainers) : Runtime :=
  ⟨.ok listing, fun _ => none, fun _ => none⟩

/-- The container "a" as parsed. -/
def exWeb (running : Bool) : Container := ⟨"a", "stack", "/web", "web", 8080, running⟩

/-- The container "b" as parsed. -/
def exDb (running : Bool) : Container := ⟨"b", "stack", "/db", "", -1, running⟩

/-- A listing of one running container that serves "web" and declares the port "-5". -/
def exNegativePortListing : List APIContainers :=
  [⟨"a", ["/web"], "running",
    [(ContainerLabelGroupName, "stack"), (ContainerLabelServiceName, "web"),
      (ContainerLabelAccessibleAt, "-5")]⟩]

/-- A proxy with an empty route cache, no pending command and an empty recency map. -/
def exProxy : Proxy := ⟨⟨⟨[], []⟩, 10, [], []⟩, []⟩

/-- A listing of one running container with the service name "db" and no port label. -/
def exNoPortListing : List APIContainers :=
  [⟨"b", ["/db"], "running",
    [(ContainerLabelGroupName, "stack"), (ContainerLabelServiceName, "db")]⟩]

/-- The priorities of the scenario: "a" has priority 10, any other container 5. -/
def exPriority (container : Container) : Int := if container.ID = "a" then 10 else 5

/-- A service with no pending command, timeout 10 and empty maps. -/
def exService : ContainerService := ⟨⟨[], []⟩, 10, [], []⟩

/-- A service whose client has a start of "a" in flight, with timeout 10 and an empty
recency map. -/
def exStartingService : ContainerService := ⟨⟨[("a", ())], []⟩, 10, [], []⟩

/-- The priorities of a group whose members all have priority 5. -/
def exFlatPriority (_container : Container) : Int := 5

/-! ## Theorems -/

/-- C1: when the container of a service is found with an accessible port and its group
is found, `GetServiceContainer` answers ShuttingDown without dispatching `startContainers`
if a member is pending stop; otherwise Loading with exactly one dispatch for the group if
a member is not running; otherwise Running without a dispatch. -/
theorem GetServiceContainer_status (rt : Runtime) (dc : DockerClient) (serviceName : String)
    (container : Container) (group : ContainerGroup)
    (hc : GetContainerByServiceName rt serviceName = .ok container)
    (hp : container.AccessiblePort ≠ -1)
    (hg : GetContainerGroupByLabel rt container.GroupName = .ok group) :
    ((∃ m ∈ group.Containers, dc.IsContainerStopping m.ID = true) →
      ∃ sc, GetServiceContainer rt dc serviceName = (.ok sc, []) ∧
        sc.Status = .ShuttingDown) ∧
    ((∀ m ∈ group.Containers, dc.IsContainerStopping m.ID = false) →
      (∃ m ∈ group.Containers, m.IsRunning = false) →
      GetServiceContainer rt dc serviceName = (.ok ⟨container, .Loading⟩, [group])) ∧
    ((∀ m ∈ group.Containers, dc.IsContainerStopping m.ID = false) →
      (∀ m ∈ group.Containers, m.IsRunning = true) →
      GetServiceContainer rt dc serviceName = (.ok ⟨container, .Running⟩, [])) := by
  refine ⟨?_, ?_, ?_⟩
  · rintro ⟨m, hm, hs⟩
    cases hf : group.Containers.find? (fun member => dc.IsContainerStopping member.ID) with
    | none =>
      rw [List.find?_eq_none] at hf
      exact absurd hs (by simpa using hf m hm)
    | some member =>
      exact ⟨⟨member, .ShuttingDown⟩, by simp [GetServiceContainer, hc, hp, hg, hf], rfl⟩
  · intro hs ⟨m, hm, hr⟩
    have hf : group.Containers.find? (fun member => dc.IsContainerStopping member.ID) = none := by
      rw [List.find?_eq_none]
      intro x hx
      simp [hs x hx]
    have hall : group.IsAllRunning = false := by
      simp only [ContainerGroup.IsAllRunning, List.all_eq_false]
      exact ⟨m, hm, by simp [hr]⟩
    simp [GetServiceContainer, hc, hp, hg, hf, hall]
  · intro hs hr
    have hf : group.Containers.find? (fun member => dc.IsContainerStopping member.ID) = none := by
      rw [List.find?_eq_none]
      intro x hx
      simp [hs x hx]
    have hall : group.IsAllRunning = true := by
      simp only [ContainerGroup.IsAllRunning, List.all_eq_true]
      exact hr
    simp [GetServiceContainer, hc, hp, hg, hf, hall]

/-- C1 witness: group "stack" with "a" stopped and nothing pending stop resolves "web" to
Loading with one dispatch. -/
theorem GetServiceContainer_status_witness :
    GetServiceContainer (exRuntime (exListing "exited" "running")) ⟨[], []⟩ "web" =
      (.ok ⟨exWeb false, .Loading⟩, [⟨"stack", [exWeb false, exDb true]⟩]) :=
  (GetServiceContainer_status (exRuntime (exListing "exited" "running")) ⟨[], []⟩ "web"
    (exWeb false) ⟨"stack", [exWeb false, exDb true]⟩
    (by decide) (by decide) (by decide)).2.1 (by decide) (by decide)


/-! ### sync.Map -/

theorem SyncMap.Load_eq_none_iff {α : Type} (m : SyncMap α) (k : String) :
    SyncMap.Load m k = none ↔ ∀ e ∈ m, e.1 ≠ k := by
  induction m with
  | nil => simp [SyncMap.Load]
  | cons e m ih =>
    obtain ⟨a, b⟩ := e
    simp only [SyncMap.Load] at ih
    by_cases h : k = a
    · subst h
      simp [SyncMap.Load, List.lookup_cons]
    · have h2 : (k == a) = false := by simpa using h
      simp [SyncMap.Load, List.lookup_cons, h2, ih, Ne.symm h]

theorem SyncMap.Delete_eq_self {α : Type} (m : SyncMap α) (k : String)
    (h : SyncMap.Load m k = none) : SyncMap.Delete m k = m := by
  rw [SyncMap.Load_eq_none_iff] at h
  simp only [SyncMap.Delete, List.filter_eq_self]
  intro e he
  simpa using h e he

theorem SyncMap.Delete_Store {α : Type} (m : SyncMap α) (k : String) (v : α)
    (h : SyncMap.Load m k = none) : SyncMap.Delete (SyncMap.Store m k v) k = m := by
  have h2 : List.lookup k m = none := h
  have h3 := SyncMap.Delete_eq_self m k h
  simp only [SyncMap.Delete] at h3
  simp [SyncMap.Store, h2, SyncMap.Delete, List.filter_append, h3]

theorem SyncMap.Load_Delete_self {α : Type} (m : SyncMap α) (k : String) :
    SyncMap.Load (SyncMap.Delete m k) k = none := by
  rw [SyncMap.Load_eq_none_iff]
  intro e he
  simp only [SyncMap.Delete, List.mem_filter] at he
  simpa using he.2

theorem SyncMap.Load_Delete_ne {α : Type} (m : SyncMap α) (k j : String) (h : j ≠ k) :
    SyncMap.Load (SyncMap.Delete m k) j = SyncMap.Load m j := by
  induction m with
  | nil => rfl
  | cons e m ih =>
    obtain ⟨a, b⟩ := e
    simp only [SyncMap.Load, SyncMap.Delete] at ih ⊢
    by_cases ha : a = k
    · subst ha
      have : (j == a) = false := by simpa using h
      simp [List.filter_cons, List.lookup_cons, this, ih]
    · have h1 : (a != k) = true := by simpa using ha
      simp only [List.filter_cons, h1, if_true, List.lookup_cons, ih]

theorem SyncMap.lookup_overwrite_self {α : Type} (m : SyncMap α) (k : String) (v : α)
    (h : (List.lookup k m).isSome = true) :
    List.lookup k (m.map (fun e => if e.1 == k then (k, v) else e)) = some v := by
  induction m with
  | nil => simp at h
  | cons e m ih =>
    obtain ⟨a, b⟩ := e
    by_cases ha : a = k
    · subst ha
      simp [List.lookup_cons]
    · have h1 : (a == k) = false := by simpa using ha
      have h2 : (k == a) = false := by simpa using Ne.symm ha
      simp only [List.lookup_cons, h2] at h
      have ih2 : List.lookup k (List.map (fun e => if e.1 = k then (k, v) else e) m) =
          some v := by simpa using ih h
      simp [List.lookup_cons, ha, h2, ih2]

theorem SyncMap.lookup_overwrite_ne {α : Type} (m : SyncMap α) (k j : String) (v : α)
    (h : j ≠ k) :
    List.lookup j (m.map (fun e => if e.1 == k then (k, v) else e)) = List.lookup j m := by
  induction m with
  | nil => rfl
  | cons e m ih =>
    obtain ⟨a, b⟩ := e
    have hjk : (j == k) = false := by simpa using h
    by_cases ha : a = k
    · subst ha
      have ih2 : List.lookup j (List.map (fun e => if e.1 = a then (a, v) else e) m) =
          List.lookup j m := by simpa using ih
      simp [List.lookup_cons, hjk, ih2]
    · have h1 : (a == k) = false := by simpa using ha
      have ih2 : List.lookup j (List.map (fun e => if e.1 = k then (k, v) else e) m) =
          List.lookup j m := by simpa using ih
      simp [List.lookup_cons, ha, ih2]

theorem SyncMap.Load_Store_self {α : Type} (m : SyncMap α) (k : String) (v : α) :
    SyncMap.Load (SyncMap.Store m k v) k = some v := by
  cases h : List.lookup k m with
  | none =>
    simp [SyncMap.Store, h, SyncMap.Load, List.lookup_append]
  | some w =>
    have h2 : (List.lookup k m).isSome = true := by simp [h]
    simp only [SyncMap.Store, h2, if_true, SyncMap.Load]
    exact SyncMap.lookup_overwrite_self m k v h2

theorem SyncMap.Load_Store_ne {α : Type} (m : SyncMap α) (k j : String) (v : α)
    (h : j ≠ k) : SyncMap.Load (SyncMap.Store m k v) j = SyncMap.Load m j := by
  have hjk : (j == k) = false := by simpa using h
  cases h2 : (List.lookup k m).isSome with
  | false =>
    simp [SyncMap.Store, h2, SyncMap.Load, List.lookup_append, List.lookup_cons, hjk]
  | true =>
    simp only [SyncMap.Store, h2, if_true, SyncMap.Load]
    exact SyncMap.lookup_overwrite_ne m k j v h

/-! ### The pending guard -/

theorem StartContainer_not_pending (rt : Runtime) (c : DockerClient) (id : String)
    (h : c.IsContainerStarting id = false) :
    c.StartContainer rt id =
      ((rt.StartContainer id).map Err.runtime, c, [⟨.start, id, c.markStarting id⟩]) := by
  have hl : SyncMap.Load c.startingContainers id = none := by
    simpa [DockerClient.IsContainerStarting] using h
  have hd := SyncMap.Delete_Store c.startingContainers id () hl
  simp [DockerClient.StartContainer, h, hd, DockerClient.markStarting]

theorem StopContainer_not_pending (rt : Runtime) (c : DockerClient) (id : String)
    (h : c.IsContainerStopping id = false) :
    c.StopContainer rt id =
      ((rt.StopContainer id).map Err.runtime, c, [⟨.stop, id, c.markStopping id⟩]) := by
  have hl : SyncMap.Load c.stoppingContainers id = none := by
    simpa [DockerClient.IsContainerStopping] using h
  have hd := SyncMap.Delete_Store c.stoppingContainers id () hl
  simp [DockerClient.StopContainer, h, hd, DockerClient.markStopping]

/-- C2: `StartContainer` on an identifier already pending start returns the duplicate
error and issues no runtime command; otherwise it issues exactly one runtime start
command, during which the identifier is pending start, returns the result of the runtime,
and leaves the identifier not pending start. `StopContainer` does the same with the
pending-stop set. In every branch the client after the call equals the client before. -/
theorem StartContainer_StopContainer_guard (rt : Runtime) (c : DockerClient) (id : String) :
    (c.IsContainerStarting id = true →
      c.StartContainer rt id = (some (.alreadyStarting id), c, [])) ∧
    (c.IsContainerStarting id = false →
      c.StartContainer rt id =
        ((rt.StartContainer id).map Err.runtime, c, [⟨.start, id, c.markStarting id⟩]) ∧
      (c.markStarting id).IsContainerStarting id = true ∧
      (c.StartContainer rt id).2.1.IsContainerStarting id = false) ∧
    (c.IsContainerStopping id = true →
      c.StopContainer rt id = (some (.alreadyStopping id), c, [])) ∧
    (c.IsContainerStopping id = false →
      c.StopContainer rt id =
        ((rt.StopContainer id).map Err.runtime, c, [⟨.stop, id, c.markStopping id⟩]) ∧
      (c.markStopping id).IsContainerStopping id = true ∧
      (c.StopContainer rt id).2.1.IsContainerStopping id = false) := by
  refine ⟨?_, ?_, ?_, ?_⟩
  · intro h
    simp [DockerClient.StartContainer, h]
  · intro h
    have hs := StartContainer_not_pending rt c id h
    refine ⟨hs, ?_, ?_⟩
    · simp [DockerClient.IsContainerStarting, DockerClient.markStarting,
        SyncMap.Load_Store_self]
    · rw [hs]
      exact h
  · intro h
    simp [DockerClient.StopContainer, h]
  · intro h
    have hs := StopContainer_not_pending rt c id h
    refine ⟨hs, ?_, ?_⟩
    · simp [DockerClient.IsContainerStopping, DockerClient.markStopping,
        SyncMap.Load_Store_self]
    · rw [hs]
      exact h

/-- C2 witness: with "b" pending start and "a" not, a start of "b" is refused without a
runtime command, and a start of "a" issues one command and leaves the client as it was. -/
theorem StartContainer_StopContainer_guard_witness :
    (⟨[("b", ())], []⟩ : DockerClient).StartContainer (exRuntime []) "b" =
      (some (.alreadyStarting "b"), ⟨[("b", ())], []⟩, []) ∧
    (⟨[("b", ())], []⟩ : DockerClient).StartContainer (exRuntime []) "a" =
      (none, ⟨[("b", ())], []⟩, [⟨.start, "a", ⟨[("b", ()), ("a", ())], []⟩⟩]) :=
  ⟨(StartContainer_StopContainer_guard (exRuntime []) ⟨[("b", ())], []⟩ "b").1 (by decide),
    ((StartContainer_StopContainer_guard (exRuntime []) ⟨[("b", ())], []⟩ "a").2.1
      (by decide)).1⟩

/-! ### Group lookup -/

theorem buildContainer_ne_panic (container : APIContainers) (serviceName : String) (port : Int)
    (h : container.Names ≠ []) (m : String) :
    buildContainer container serviceName port ≠ .panic m := by
  unfold buildContainer
  split
  · contradiction
  · simp

theorem parseContainer_ne_panic (container : APIContainers) (h : container.Names ≠ [])
    (m : String) : parseContainer container ≠ .panic m := by
  unfold parseContainer
  simp only
  split
  · split
    · simp
    · split
      · simp
      · exact buildContainer_ne_panic _ _ _ h m
  · exact buildContainer_ne_panic _ _ _ h m

theorem collectGroup_ne_panic (label : String) (cs : List APIContainers)
    (h : ∀ c ∈ cs, c.Names ≠ []) (m : String) : collectGroup label cs ≠ .panic m := by
  induction cs with
  | nil => simp [collectGroup]
  | cons c cs ih =>
    have ih2 := ih (fun x hx => h x (List.mem_cons_of_mem _ hx))
    have hc := parseContainer_ne_panic c (h c (List.mem_cons_self _ _))
    unfold collectGroup
    split
    · split
      · split
        · simp
        · simp
        · rename_i heq
          intro hm
          cases hm
          exact ih2 heq
      · simp
      · rename_i m2 heq
        exact absurd heq (hc m2)
    · exact ih2

theorem GetContainerGroupByLabel_ne_panic (rt : Runtime) (cs : List APIContainers)
    (hl : rt.ListContainers = .ok cs) (h : ∀ c ∈ cs, c.Names ≠ []) (label m : String) :
    GetContainerGroupByLabel rt label ≠ .panic m := by
  unfold GetContainerGroupByLabel
  rw [hl]
  simp only
  split
  · split <;> simp
  · simp
  · rename_i m2 heq
    exact absurd heq (collectGroup_ne_panic label cs h m2)

theorem GetContainerGroupByLabel_Name (rt : Runtime) (label : String) (g : ContainerGroup)
    (h : GetContainerGroupByLabel rt label = .ok g) : g.Name = label := by
  unfold GetContainerGroupByLabel at h
  split at h
  · simp at h
  · split at h
    · split at h
      · simp at h
      · cases h
        rfl
    · simp at h
    · simp at h

/-! ### Frame of `stopContainers` -/

theorem stopStep_frame (rt : Runtime) (groupName : String)
    (acc : ContainerService × List RuntimeCall) (container : Container) :
    (stopStep rt groupName acc container).1.accessTimeMap = acc.1.accessTimeMap ∧
    (stopStep rt groupName acc container).1.InactivityTimeout = acc.1.InactivityTimeout := by
  unfold stopStep
  split <;> simp

theorem stopFold_frame (rt : Runtime) (groupName : String) (l : List Container)
    (acc : ContainerService × List RuntimeCall) :
    (l.foldl (stopStep rt groupName) acc).1.accessTimeMap = acc.1.accessTimeMap ∧
    (l.foldl (stopStep rt groupName) acc).1.InactivityTimeout = acc.1.InactivityTimeout := by
  induction l generalizing acc with
  | nil => simp
  | cons c l ih =>
    have h := stopStep_frame rt groupName acc c
    have h2 := ih (stopStep rt groupName acc c)
    simp only [List.foldl_cons]
    exact ⟨h2.1.trans h.1, h2.2.trans h.2⟩

theorem stopContainers_frame (priority : Container → Int) (rt : Runtime)
    (s : ContainerService) (group : ContainerGroup) :
    (stopContainers priority rt s group).1.accessTimeMap = s.accessTimeMap ∧
    (stopContainers priority rt s group).1.InactivityTimeout = s.InactivityTimeout :=
  stopFold_frame rt group.Name _ (s, [])

/-! ### One pass of the cleaner -/

theorem cleanerRange_ok (priority : Container → Int) (rt : Runtime) (now : Int)
    (hnp : ∀ label m, GetContainerGroupByLabel rt label ≠ .panic m)
    (entries : List (String × Int)) (st : Sweep) :
    ∃ st2, cleanerRange priority rt now entries st = .ok st2 ∧
      st2.stopped =
        st.stopped ++ entries.filterMap (sweptGroup rt now st.service.InactivityTimeout) ∧
      st2.service.accessTimeMap =
        (entries.filter (fun e =>
          (sweptGroup rt now st.service.InactivityTimeout e).isSome)).foldl
          (fun m e => SyncMap.Delete m e.1) st.service.accessTimeMap ∧
      st2.service.InactivityTimeout = st.service.InactivityTimeout := by
  induction entries generalizing st with
  | nil => exact ⟨st, by simp [cleanerRange]⟩
  | cons e entries ih =>
    obtain ⟨key, t⟩ := e
    unfold cleanerRange
    by_cases hexp : now - t > st.service.InactivityTimeout
    · simp only [hexp, if_true]
      cases hg : GetContainerGroupByLabel rt key with
      | panic m => exact absurd hg (hnp key m)
      | err er =>
        obtain ⟨st2, h1, h2, h3, h4⟩ := ih st
        refine ⟨st2, h1, ?_, ?_, h4⟩
        · simp [h2, sweptGroup, hexp, hg]
        · simp [h3, sweptGroup, hexp, hg]
      | ok g =>
        have hf := stopContainers_frame priority rt st.service g
        obtain ⟨st2, h1, h2, h3, h4⟩ := ih
          ⟨{ (stopContainers priority rt st.service g).1 with
              accessTimeMap :=
                SyncMap.Delete (stopContainers priority rt st.service g).1.accessTimeMap key },
            st.stopped ++ [g], st.calls ++ (stopContainers priority rt st.service g).2⟩
        simp only [hf.1, hf.2] at h2 h3 h4
        refine ⟨st2, h1, ?_, ?_, h4⟩
        · simp [h2, sweptGroup, hexp, hg]
        · simp [h3, sweptGroup, hexp, hg]
    · obtain ⟨st2, h1, h2, h3, h4⟩ := ih st
      refine ⟨st2, by simp [hexp, h1], ?_, ?_, h4⟩
      · simp [h2, sweptGroup, hexp]
      · simp [h3, sweptGroup, hexp]

theorem SyncMap.mem_of_Load {α : Type} (m : SyncMap α) (k : String) (v : α)
    (h : SyncMap.Load m k = some v) : (k, v) ∈ m := by
  induction m with
  | nil => simp [SyncMap.Load] at h
  | cons e m ih =>
    obtain ⟨a, b⟩ := e
    simp only [SyncMap.Load, List.lookup_cons] at h ih
    by_cases hk : k = a
    · subst hk
      simp at h
      simp [h]
    · have h2 : (k == a) = false := by simpa using hk
      simp only [h2] at h
      exact List.mem_cons_of_mem _ (ih h)

theorem SyncMap.Load_of_mem {α : Type} (m : SyncMap α) (k : String) (v : α)
    (hn : (SyncMap.keys m).Nodup) (h : (k, v) ∈ m) : SyncMap.Load m k = some v := by
  induction m with
  | nil => simp at h
  | cons e m ih =>
    obtain ⟨a, b⟩ := e
    simp only [SyncMap.keys, List.map_cons, List.nodup_cons, List.mem_map, not_exists,
      not_and] at hn
    simp only [SyncMap.Load, List.lookup_cons] at ih ⊢
    rcases List.mem_cons.1 h with heq | hmem
    · cases heq
      simp
    · have hk : k ≠ a := by
        intro hka
        subst hka
        exact hn.1 (k, v) hmem rfl
      have h2 : (k == a) = false := by simpa using hk
      simp only [h2]
      exact ih hn.2 hmem

theorem SyncMap.Load_foldl_Delete {α β : Type} (ks : List (String × β)) (m : SyncMap α)
    (j : String) :
    SyncMap.Load (ks.foldl (fun m e => SyncMap.Delete m e.1) m) j =
      if ∃ e ∈ ks, e.1 = j then none else SyncMap.Load m j := by
  induction ks generalizing m with
  | nil => simp
  | cons e ks ih =>
    simp only [List.foldl_cons, ih]
    by_cases h1 : ∃ x ∈ ks, x.1 = j
    · have : ∃ x ∈ e :: ks, x.1 = j := by
        obtain ⟨x, hx, hj⟩ := h1
        exact ⟨x, List.mem_cons_of_mem _ hx, hj⟩
      simp [h1, this]
    · by_cases h2 : e.1 = j
      · have : ∃ x ∈ e :: ks, x.1 = j := ⟨e, List.mem_cons_self _ _, h2⟩
        rw [if_neg h1, if_pos this, ← h2]
        exact SyncMap.Load_Delete_self m e.1
      · have : ¬ ∃ x ∈ e :: ks, x.1 = j := by
          rintro ⟨x, hx, hj⟩
          rcases List.mem_cons.1 hx with rfl | hx
          · exact h2 hj
          · exact h1 ⟨x, hx, hj⟩
        rw [if_neg h1, if_neg this]
        exact SyncMap.Load_Delete_ne m e.1 j (Ne.symm h2)

/-- C3 (as stated, refuted): timeout 10, last access at 0, a pass at 10, so that
`now >= t0 + T`, and a group "stack" whose membership resolves: the pass completes without
calling `stopContainers` and issues no runtime command. -/
theorem cleaner_boundary_counterexample :
    (10 : Int) ≥ 0 + 10 ∧
    GetContainerGroupByLabel (exRuntime (exListing "running" "running")) "stack" =
      .ok ⟨"stack", [exWeb true, exDb true]⟩ ∧
    InactiveContainersCleanerTick (fun _ => 0) (exRuntime (exListing "running" "running")) 10
        ⟨⟨[], []⟩, 10, [("stack", 0)], []⟩ =
      .ok ⟨⟨⟨[], []⟩, 10, [("stack", 0)], []⟩, [], []⟩ := by
  decide

/-- C3 (amended): in a pass at time `now` over a map that holds `t0` for a group, with the
listing available, `stopContainers` is not called for the group when `now <= t0 + T`, and
is called for it when `now > t0 + T` and the group's membership resolves. -/
theorem cleaner_stops_iff_expired (priority : Container → Int) (rt : Runtime) (now : Int)
    (s : ContainerService) (cs : List APIContainers)
    (hl : rt.ListContainers = .ok cs) (hnames : ∀ c ∈ cs, c.Names ≠ [])
    (hkeys : (SyncMap.keys s.accessTimeMap).Nodup)
    (key : String) (t0 : Int) (h0 : SyncMap.Load s.accessTimeMap key = some t0) :
    ∃ st, InactiveContainersCleanerTick priority rt now s = .ok st ∧
      (now ≤ t0 + s.InactivityTimeout → ∀ g ∈ st.stopped, g.Name ≠ key) ∧
      (now > t0 + s.InactivityTimeout →
        ∀ g, GetContainerGroupByLabel rt key = .ok g → g ∈ st.stopped) := by
  obtain ⟨st, h1, h2, _, _⟩ := cleanerRange_ok priority rt now
    (GetContainerGroupByLabel_ne_panic rt cs hl hnames) s.accessTimeMap ⟨s, [], []⟩
  refine ⟨st, h1, ?_, ?_⟩
  · intro hle g hg hname
    simp only [List.nil_append, List.mem_filterMap] at h2
    rw [h2] at hg
    obtain ⟨e, he, hsw⟩ := List.mem_filterMap.1 hg
    obtain ⟨k, t⟩ := e
    unfold sweptGroup at hsw
    split at hsw
    · rename_i hexp
      split at hsw
      · rename_i g2 hres
        cases hsw
        have hk : k = key := by
          rw [← GetContainerGroupByLabel_Name rt k g hres]
          exact hname
        subst hk
        have := SyncMap.Load_of_mem s.accessTimeMap k t hkeys he
        rw [this] at h0
        cases h0
        simp only at hexp
        omega
      · simp at hsw
    · simp at hsw
  · intro hgt g hres
    rw [h2]
    simp only [List.nil_append, List.mem_filterMap]
    refine ⟨(key, t0), SyncMap.mem_of_Load _ _ _ h0, ?_⟩
    have hexp : now - t0 > s.InactivityTimeout := by omega
    simp [sweptGroup, hexp, hres]

/-- C3 witness: timeout 10, last access at 0, pass at 11: group "stack" is stopped. -/
theorem cleaner_stops_iff_expired_witness :
    ∃ st, InactiveContainersCleanerTick (fun _ => 0)
        (exRuntime (exListing "running" "running")) 11
        ⟨⟨[], []⟩, 10, [("stack", 0)], []⟩ = .ok st ∧
      ((11 : Int) ≤ 0 + 10 → ∀ g ∈ st.stopped, g.Name ≠ "stack") ∧
      ((11 : Int) > 0 + 10 →
        ∀ g, GetContainerGroupByLabel (exRuntime (exListing "running" "running")) "stack" =
          .ok g → g ∈ st.stopped) :=
  cleaner_stops_iff_expired (fun _ => 0) (exRuntime (exListing "running" "running")) 11
    ⟨⟨[], []⟩, 10, [("stack", 0)], []⟩ (exListing "running" "running") rfl (by decide)
    (by decide) "stack" 0 (by decide)

/-! ### The route cache -/

theorem createReverseProxy_eq (rt : Runtime) (p : Proxy) (serviceName : String) :
    (p.createReverseProxy rt serviceName).1 =
      match (GetServiceContainer rt p.ContainerService.DockerClient serviceName).1 with
      | .panic m => .panic m
      | .err e => .err e
      | .ok container =>
        if container.Status ≠ .Running then
          .err (.WrongServiceStatusError serviceName container.Container.GroupName
            container.Status)
        else if container.Container.AccessiblePort < 0 then
          .err (.accessURLFailed serviceName
            (.invalidURLPort container.Container.AccessiblePort))
        else .ok ⟨container.Container.GroupName,
          ⟨"http", "127.0.0.1", container.Container.AccessiblePort⟩⟩ := by
  unfold Proxy.createReverseProxy
  simp only
  cases (GetServiceContainer rt p.ContainerService.DockerClient serviceName).1 with
  | panic m => rfl
  | err e => rfl
  | ok container =>
    simp only
    by_cases hs : container.Status ≠ .Running
    · simp [hs]
    · by_cases hp : container.Container.AccessiblePort < 0
      · simp [hs, hp, ServiceContainer.AccessURL]
      · simp [hs, hp, ServiceContainer.AccessURL]

/-- C4 (as stated, refuted): a running container serving "web" with the port label "-5"
resolves with status Running, yet `getReverseProxy` stores no route: the access URL does
not parse, the error is returned and the cache stays empty. -/
theorem getReverseProxy_running_not_stored_counterexample :
    (GetServiceContainer (exRuntime exNegativePortListing) exProxy.ContainerService.DockerClient
        "web").1 = .ok ⟨⟨"a", "stack", "/web", "web", -5, true⟩, .Running⟩ ∧
    exProxy.getReverseProxy (exRuntime exNegativePortListing) "web" =
      (.err (.accessURLFailed "web" (.invalidURLPort (-5))), exProxy, [.resolve "web"]) ∧
    SyncMap.Load
      (exProxy.getReverseProxy (exRuntime exNegativePortListing) "web").2.1.reverseProxiesMap
      "web" = none := by
  decide

/-- C4 (amended): for a service name with no cached route, `getReverseProxy` stores a route
under that name if and only if `GetServiceContainer` succeeded with status Running and the
container's port is not negative (its access URL parses); the stored route then carries the
resolved container's group name and the target 127.0.0.1 at that port. When the resolved
status is not Running (so Loading or ShuttingDown), the proxy is left unchanged and both
`getReverseProxy` and `Handle` return the `WrongServiceStatusError` with the requested
service name, the resolved container's group name and that status, unwrapped. -/
theorem getReverseProxy_stores_iff (rt : Runtime) (p : Proxy) (serviceName : String)
    (hmiss : SyncMap.Load p.reverseProxiesMap serviceName = none) :
    ((∃ route, SyncMap.Load (p.getReverseProxy rt serviceName).2.1.reverseProxiesMap
        serviceName = some route) ↔
      ∃ sc, (GetServiceContainer rt p.ContainerService.DockerClient serviceName).1 = .ok sc ∧
        sc.Status = .Running ∧ 0 ≤ sc.Container.AccessiblePort) ∧
    (∀ sc, (GetServiceContainer rt p.ContainerService.DockerClient serviceName).1 = .ok sc →
      sc.Status = .Running → 0 ≤ sc.Container.AccessiblePort →
      SyncMap.Load (p.getReverseProxy rt serviceName).2.1.reverseProxiesMap serviceName =
        some ⟨sc.Container.GroupName, ⟨"http", "127.0.0.1", sc.Container.AccessiblePort⟩⟩) ∧
    (∀ sc, (GetServiceContainer rt p.ContainerService.DockerClient serviceName).1 = .ok sc →
      sc.Status ≠ .Running →
      (p.getReverseProxy rt serviceName).1 =
        .err (.WrongServiceStatusError serviceName sc.Container.GroupName sc.Status) ∧
      (p.getReverseProxy rt serviceName).2.1 = p ∧
      ∀ now reachable,
        (p.Handle rt now reachable serviceName).1 =
          .err (.WrongServiceStatusError serviceName sc.Container.GroupName sc.Status) ∧
        (p.Handle rt now reachable serviceName).2.1 = p) := by
  have hc := createReverseProxy_eq rt p serviceName
  have hstored : ∀ sc,
      (GetServiceContainer rt p.ContainerService.DockerClient serviceName).1 = .ok sc →
      sc.Status = .Running → 0 ≤ sc.Container.AccessiblePort →
      SyncMap.Load (p.getReverseProxy rt serviceName).2.1.reverseProxiesMap serviceName =
        some ⟨sc.Container.GroupName, ⟨"http", "127.0.0.1", sc.Container.AccessiblePort⟩⟩ := by
    intro sc hsc hrun hport
    rw [hsc] at hc
    have hnot : ¬ sc.Container.AccessiblePort < 0 := by omega
    simp only [hrun, ne_eq, not_true_eq_false, if_false, hnot] at hc
    unfold Proxy.getReverseProxy
    simp only [hmiss, hc]
    exact SyncMap.Load_Store_self _ _ _
  have hwrong : ∀ sc,
      (GetServiceContainer rt p.ContainerService.DockerClient serviceName).1 = .ok sc →
      sc.Status ≠ .Running →
      (p.getReverseProxy rt serviceName).1 =
        .err (.WrongServiceStatusError serviceName sc.Container.GroupName sc.Status) ∧
      (p.getReverseProxy rt serviceName).2.1 = p := by
    intro sc hsc hrun
    rw [hsc] at hc
    simp only [hrun, ne_eq, not_false_eq_true, if_true] at hc
    unfold Proxy.getReverseProxy
    simp [hmiss, hc]
  refine ⟨⟨?_, ?_⟩, hstored, ?_⟩
  · rintro ⟨route, hroute⟩
    cases hsc : (GetServiceContainer rt p.ContainerService.DockerClient serviceName).1 with
    | panic m =>
      rw [hsc] at hc
      simp only [Proxy.getReverseProxy, hmiss, hc] at hroute
      cases hroute
    | err e =>
      rw [hsc] at hc
      simp only [Proxy.getReverseProxy, hmiss, hc] at hroute
      cases hroute
    | ok sc =>
      by_cases hrun : sc.Status = .Running
      · by_cases hport : sc.Container.AccessiblePort < 0
        · rw [hsc] at hc
          simp only [hrun, ne_eq, not_true_eq_false, if_false, hport, if_true] at hc
          simp only [Proxy.getReverseProxy, hmiss, hc] at hroute
          cases hroute
        · exact ⟨sc, rfl, hrun, by omega⟩
      · have h := (hwrong sc hsc hrun).2
        rw [h, hmiss] at hroute
        cases hroute
  · rintro ⟨sc, hsc, hrun, hport⟩
    exact ⟨_, hstored sc hsc hrun hport⟩
  · intro sc hsc hrun
    obtain ⟨h1, h2⟩ := hwrong sc hsc hrun
    refine ⟨h1, h2, ?_⟩
    intro now reachable
    unfold Proxy.Handle
    simp [h1, h2]

/-- C4 witness: with "a" stopped, "web" has no cached route and resolves to Loading; the
cache is unchanged and the error carries "web", "stack" and Loading. -/
theorem getReverseProxy_stores_iff_witness :
    (exProxy.getReverseProxy (exRuntime (exListing "exited" "running")) "web").1 =
      .err (.WrongServiceStatusError "web" "stack" .Loading) ∧
    (exProxy.getReverseProxy (exRuntime (exListing "exited" "running")) "web").2.1 = exProxy :=
  have h := ((getReverseProxy_stores_iff (exRuntime (exListing "exited" "running")) exProxy "web"
    (by decide)).2.2 ⟨exWeb false, .Loading⟩ (by decide) (by decide))
  ⟨h.1, h.2.1⟩

theorem createReverseProxy_events (rt : Runtime) (p : Proxy) (serviceName : String) :
    (p.createReverseProxy rt serviceName).2 =
      Event.resolve serviceName ::
        (GetServiceContainer rt p.ContainerService.DockerClient serviceName).2.map
          Event.startGroup := by
  unfold Proxy.createReverseProxy
  simp only
  cases (GetServiceContainer rt p.ContainerService.DockerClient serviceName).1 with
  | panic m => rfl
  | err e => rfl
  | ok container =>
    simp only
    split
    · rfl
    · split <;> rfl

theorem Handle_uncached (rt : Runtime) (now : Int) (reachable : URL → Bool) (q : Proxy)
    (s : String) (hnone : SyncMap.Load q.reverseProxiesMap s = none) :
    (q.Handle rt now reachable s).2.2.head? = some (Event.resolve s) ∧
    ∀ target, Event.forward target ∈ (q.Handle rt now reachable s).2.2 →
      ∃ sc, (GetServiceContainer rt q.ContainerService.DockerClient s).1 = .ok sc ∧
        sc.Status = .Running ∧
        target = ⟨"http", "127.0.0.1", sc.Container.AccessiblePort⟩ := by
  have hc := createReverseProxy_eq rt q s
  have he := createReverseProxy_events rt q s
  cases hsc : (GetServiceContainer rt q.ContainerService.DockerClient s).1 with
  | panic m =>
    rw [hsc] at hc
    simp [Proxy.Handle, Proxy.getReverseProxy, hnone, hc, he]
  | err e =>
    rw [hsc] at hc
    simp [Proxy.Handle, Proxy.getReverseProxy, hnone, hc, he]
  | ok sc =>
    rw [hsc] at hc
    by_cases hrun : sc.Status = .Running
    · by_cases hport : sc.Container.AccessiblePort < 0
      · simp only [hrun, ne_eq, not_true_eq_false, if_false, hport, if_true] at hc
        simp [Proxy.Handle, Proxy.getReverseProxy, hnone, hc, he]
      · simp only [hrun, ne_eq, not_true_eq_false, if_false, hport] at hc
        by_cases hr : reachable ⟨"http", "127.0.0.1", sc.Container.AccessiblePort⟩ = true
        · simp [Proxy.Handle, Proxy.getReverseProxy, hnone, hc, he, hr, hrun]
        · simp [Proxy.Handle, Proxy.getReverseProxy, hnone, hc, he, hr, hrun,
            Proxy.ErrorHandler]
    · simp only [hrun, ne_eq, not_false_eq_true, if_true] at hc
      simp [Proxy.Handle, Proxy.getReverseProxy, hnone, hc, he]

/-- C5: when the error handler of the route of `s` fires, the cache entry of `s` is removed
and every other entry is unchanged; the next `Handle` of `s`, whatever the runtime then
answers, calls `GetServiceContainer` for `s` first, and forwards only when that resolution
succeeds with status Running, to the port of the freshly resolved container. -/
theorem ErrorHandler_forces_resolution (p : Proxy) (s : String) :
    SyncMap.Load (p.ErrorHandler s).1.reverseProxiesMap s = none ∧
    (∀ j, j ≠ s →
      SyncMap.Load (p.ErrorHandler s).1.reverseProxiesMap j =
        SyncMap.Load p.reverseProxiesMap j) ∧
    (p.ErrorHandler s).1.ContainerService = p.ContainerService ∧
    ∀ (rt : Runtime) (now : Int) (reachable : URL → Bool),
      ((p.ErrorHandler s).1.Handle rt now reachable s).2.2.head? = some (Event.resolve s) ∧
      ∀ target, Event.forward target ∈ ((p.ErrorHandler s).1.Handle rt now reachable s).2.2 →
        ∃ sc, (GetServiceContainer rt p.ContainerService.DockerClient s).1 = .ok sc ∧
          sc.Status = .Running ∧
          target = ⟨"http", "127.0.0.1", sc.Container.AccessiblePort⟩ := by
  have hnone : SyncMap.Load (p.ErrorHandler s).1.reverseProxiesMap s = none :=
    SyncMap.Load_Delete_self _ _
  refine ⟨hnone, fun j hj => SyncMap.Load_Delete_ne _ _ _ hj, rfl, ?_⟩
  intro rt now reachable
  exact Handle_uncached rt now reachable (p.ErrorHandler s).1 s hnone

/-- C5 witness: the route of "web" is cached, its error handler fires, and the next
`Handle` of "web" starts with a call of `GetServiceContainer`. -/
theorem ErrorHandler_forces_resolution_witness :
    (((⟨⟨⟨[], []⟩, 10, [], []⟩, [("web", ⟨"stack", ⟨"http", "127.0.0.1", 8080⟩⟩)]⟩ :
        Proxy).ErrorHandler "web").1.Handle (exRuntime (exListing "exited" "exited")) 5
        (fun _ => true) "web").2.2.head? = some (Event.resolve "web") :=
  ((ErrorHandler_forces_resolution
    ⟨⟨⟨[], []⟩, 10, [], []⟩, [("web", ⟨"stack", ⟨"http", "127.0.0.1", 8080⟩⟩)]⟩ "web").2.2.2
    (exRuntime (exListing "exited" "exited")) 5 (fun _ => true)).1

/-! ### Failed resolution -/

/-- C6: with the listing at hand, `GetServiceContainer` fails with the not-found error when
no listed container has the service-name label equal to the requested name, and fails with
the not-accessible error when the container found for the name has `AccessiblePort = -1`;
in both cases no `ServiceContainer` is returned and `startContainers` is not dispatched. -/
theorem GetServiceContainer_failures (rt : Runtime) (dc : DockerClient) (serviceName : String) :
    (∀ cs, rt.ListContainers = .ok cs →
      (∀ c ∈ cs, Labels.get? c.Labels ContainerLabelServiceName ≠ some serviceName) →
      GetServiceContainer rt dc serviceName =
        (.err (.containerNotFound serviceName .noContainersWithServiceName), [])) ∧
    (∀ container, GetContainerByServiceName rt serviceName = .ok container →
      container.AccessiblePort = -1 →
      GetServiceContainer rt dc serviceName = (.err (.notAccessible serviceName), [])) := by
  constructor
  · intro cs hl hno
    have hf : cs.find? (fun container =>
        Labels.get? container.Labels ContainerLabelServiceName == some serviceName) = none := by
      rw [List.find?_eq_none]
      intro c hc
      simpa using hno c hc
    simp [GetServiceContainer, GetContainerByServiceName, hl, hf]
  · intro container hc hp
    simp [GetServiceContainer, hc, hp]

/-- C6 witness: in the listing of group "stack", no container serves "api", and the
container that serves "db" in the second listing declares no port. -/
theorem GetServiceContainer_failures_witness :
    GetServiceContainer (exRuntime (exListing "running" "running")) ⟨[], []⟩ "api" =
      (.err (.containerNotFound "api" .noContainersWithServiceName), []) ∧
    GetServiceContainer (exRuntime exNoPortListing) ⟨[], []⟩ "db" =
      (.err (.notAccessible "db"), []) :=
  ⟨(GetServiceContainer_failures (exRuntime (exListing "running" "running")) ⟨[], []⟩ "api").1
      (exListing "running" "running") rfl (by decide),
    (GetServiceContainer_failures (exRuntime exNoPortListing) ⟨[], []⟩ "db").2
      ⟨"b", "stack", "/db", "db", -1, true⟩ (by decide) (by decide)⟩

/-! ### Order of start and stop commands -/

theorem startFold_calls (rt : Runtime) (now : Int) (groupName : String) (l : List Container)
    (acc : ContainerService × List RuntimeCall) :
    (l.foldl (startStep rt now groupName) acc).1.DockerClient = acc.1.DockerClient ∧
    (l.foldl (startStep rt now groupName) acc).2 =
      acc.2 ++ (l.filter (startEligible acc.1.DockerClient)).map
        (fun m => ⟨.start, m.ID, acc.1.DockerClient.markStarting m.ID⟩) := by
  induction l generalizing acc with
  | nil => simp
  | cons c l ih =>
    obtain ⟨h1, h2⟩ := ih (startStep rt now groupName acc c)
    simp only [List.foldl_cons]
    by_cases he : startEligible acc.1.DockerClient c = true
    · have hs : acc.1.DockerClient.IsContainerStarting c.ID = false := by
        simp only [startEligible, Bool.and_eq_true, Bool.not_eq_true'] at he
        exact he.1.2
      have hstep : startStep rt now groupName acc c =
          ({ acc.1 with accessTimeMap := SyncMap.Store acc.1.accessTimeMap groupName now },
            acc.2 ++ [⟨.start, c.ID, acc.1.DockerClient.markStarting c.ID⟩]) := by
        simp [startStep, he, StartContainer_not_pending rt _ _ hs]
      rw [hstep] at h1 h2 ⊢
      refine ⟨h1, ?_⟩
      rw [h2]
      simp [List.filter_cons, he]
    · have hstep : startStep rt now groupName acc c = acc := by
        simp [startStep, he]
      rw [hstep] at h1 h2 ⊢
      refine ⟨h1, ?_⟩
      rw [h2]
      simp [List.filter_cons, he]

theorem stopFold_calls (rt : Runtime) (groupName : String) (l : List Container)
    (acc : ContainerService × List RuntimeCall) :
    (l.foldl (stopStep rt groupName) acc).1.DockerClient = acc.1.DockerClient ∧
    (l.foldl (stopStep rt groupName) acc).2 =
      acc.2 ++ (l.filter (stopEligible acc.1.DockerClient)).map
        (fun m => ⟨.stop, m.ID, acc.1.DockerClient.markStopping m.ID⟩) := by
  induction l generalizing acc with
  | nil => simp
  | cons c l ih =>
    obtain ⟨h1, h2⟩ := ih (stopStep rt groupName acc c)
    simp only [List.foldl_cons]
    by_cases he : stopEligible acc.1.DockerClient c = true
    · have hs : acc.1.DockerClient.IsContainerStopping c.ID = false := by
        simp only [stopEligible, Bool.and_eq_true, Bool.not_eq_true'] at he
        exact he.2
      have hstep : stopStep rt groupName acc c =
          ({ acc.1 with
              shuttingDown :=
                SyncMap.Delete (SyncMap.Store acc.1.shuttingDown groupName true) groupName },
            acc.2 ++ [⟨.stop, c.ID, acc.1.DockerClient.markStopping c.ID⟩]) := by
        simp [stopStep, he, StopContainer_not_pending rt _ _ hs]
      rw [hstep] at h1 h2 ⊢
      refine ⟨h1, ?_⟩
      rw [h2]
      simp [List.filter_cons, he]
    · have hstep : stopStep rt groupName acc c = acc := by
        simp [stopStep, he]
      rw [hstep] at h1 h2 ⊢
      refine ⟨h1, ?_⟩
      rw [h2]
      simp [List.filter_cons, he]

theorem highestPriority_sorted (priority : Container → Int) (group : ContainerGroup) :
    (group.GetContainersByHighestPriority priority).Pairwise
      (fun a b => priority a ≥ priority b) := by
  haveI : IsTotal Container (fun a b => priority a ≥ priority b) :=
    ⟨fun a b => le_total (priority b) (priority a)⟩
  haveI : IsTrans Container (fun a b => priority a ≥ priority b) :=
    ⟨fun a b c hab hbc => le_trans hbc hab⟩
  exact List.sorted_insertionSort _ group.Containers

theorem lowestPriority_sorted (priority : Container → Int) (group : ContainerGroup) :
    (group.GetContainersByLowestPriority priority).Pairwise
      (fun a b => priority a ≤ priority b) := by
  haveI : IsTotal Container (fun a b => priority a ≤ priority b) :=
    ⟨fun a b => le_total (priority a) (priority b)⟩
  haveI : IsTrans Container (fun a b => priority a ≤ priority b) :=
    ⟨fun a b c hab hbc => le_trans hab hbc⟩
  exact List.sorted_insertionSort _ group.Containers

theorem strict_of_distinct {p : Container → Bool} (priority : Container → Int)
    (r : Int → Int → Prop)
    (members issued : List Container) (hperm : issued.Perm (members.filter p))
    (hsorted : issued.Pairwise (fun a b => r (priority a) (priority b)))
    (hdistinct : (members.map priority).Nodup) :
    issued.Pairwise (fun a b => r (priority a) (priority b) ∧ priority a ≠ priority b) := by
  have h1 : ((members.filter p).map priority).Nodup :=
    hdistinct.sublist ((List.filter_sublist members).map priority)
  have h2 : (issued.map priority).Nodup := (hperm.map priority).nodup_iff.2 h1
  have h3 : issued.Pairwise (fun a b => priority a ≠ priority b) := List.pairwise_map.1 h2
  exact hsorted.and h3

/-- C7 (as stated, refuted): two members of equal priority 5. Both stopped,
`startContainers` issues a start command to "a" and then to "b"; both running,
`stopContainers` issues a stop command to "a" and then to "b". In neither sequence is the
priority of the earlier member strictly above, respectively strictly below, that of the
later one, so the order is not strict. -/
theorem start_stop_ties_counterexample :
    (startContainers exFlatPriority (exRuntime []) 0 exService
        ⟨"stack", [exWeb false, exDb false]⟩).2.map
        (fun call => (call.cmd, call.containerID)) = [(.start, "a"), (.start, "b")] ∧
    ¬ exFlatPriority (exWeb false) > exFlatPriority (exDb false) ∧
    (stopContainers exFlatPriority (exRuntime []) exService
        ⟨"stack", [exWeb true, exDb true]⟩).2.map
        (fun call => (call.cmd, call.containerID)) = [(.stop, "a"), (.stop, "b")] ∧
    ¬ exFlatPriority (exWeb true) < exFlatPriority (exDb true) := by
  decide

/-- C7 (amended): `startContainers` issues start commands, and only those, exactly to the
members that are not running and have no pending start and no pending stop, once per such
member, in an order in which no command precedes one for a member of higher priority, and
in strictly descending priority when the priorities of the members are pairwise distinct.
`stopContainers` issues stop commands, and only those, exactly to the members that are
running and have no pending start and no pending stop, in an order in which no command
precedes one for a member of lower priority, and in strictly ascending priority when the
priorities are pairwise distinct. For members "a" of priority 10 and "b" of priority 5:
both stopped, "a" is started before "b"; both running, "b" is stopped before "a". -/
theorem start_stop_priority_order (priority : Container → Int) (rt : Runtime) (now : Int)
    (s : ContainerService) (group : ContainerGroup) :
    (∃ issued : List Container,
      (startContainers priority rt now s group).2 =
        issued.map (fun m => ⟨.start, m.ID, s.DockerClient.markStarting m.ID⟩) ∧
      issued.Perm (group.Containers.filter (fun m =>
        !m.IsRunning && !s.DockerClient.IsContainerStarting m.ID &&
          !s.DockerClient.IsContainerStopping m.ID)) ∧
      issued.Pairwise (fun a b => priority a ≥ priority b) ∧
      ((group.Containers.map priority).Nodup →
        issued.Pairwise (fun a b => priority a > priority b))) ∧
    (∃ issued : List Container,
      (stopContainers priority rt s group).2 =
        issued.map (fun m => ⟨.stop, m.ID, s.DockerClient.markStopping m.ID⟩) ∧
      issued.Perm (group.Containers.filter (fun m =>
        m.IsRunning && !s.DockerClient.IsContainerStarting m.ID &&
          !s.DockerClient.IsContainerStopping m.ID)) ∧
      issued.Pairwise (fun a b => priority a ≤ priority b) ∧
      ((group.Containers.map priority).Nodup →
        issued.Pairwise (fun a b => priority a < priority b))) ∧
    (startContainers exPriority (exRuntime []) 0 exService
        ⟨"stack", [exDb false, exWeb false]⟩).2.map
        (fun call => (call.cmd, call.containerID)) = [(.start, "a"), (.start, "b")] ∧
    (stopContainers exPriority (exRuntime []) exService
        ⟨"stack", [exWeb true, exDb true]⟩).2.map (fun call => (call.cmd, call.containerID)) =
      [(.stop, "b"), (.stop, "a")] := by
  have hstart := (List.perm_insertionSort (fun a b => priority a ≥ priority b)
    group.Containers).filter (startEligible s.DockerClient)
  have hstop := (List.perm_insertionSort (fun a b => priority a ≤ priority b)
    group.Containers).filter (stopEligible s.DockerClient)
  refine ⟨⟨(group.GetContainersByHighestPriority priority).filter
      (startEligible s.DockerClient), ?_, hstart, ?_, ?_⟩,
    ⟨(group.GetContainersByLowestPriority priority).filter
      (stopEligible s.DockerClient), ?_, hstop, ?_, ?_⟩, by decide, by decide⟩
  · have h := (startFold_calls rt now group.Name
      (group.GetContainersByHighestPriority priority) (s, [])).2
    simpa [startContainers] using h
  · exact (highestPriority_sorted priority group).filter _
  · intro hd
    have h := strict_of_distinct priority (fun x y => x ≥ y) group.Containers _ hstart
      ((highestPriority_sorted priority group).filter _) hd
    exact h.imp (fun hab => lt_of_le_of_ne hab.1 (Ne.symm hab.2))
  · have h := (stopFold_calls rt group.Name
      (group.GetContainersByLowestPriority priority) (s, [])).2
    simpa [stopContainers] using h
  · exact (lowestPriority_sorted priority group).filter _
  · intro hd
    have h := strict_of_distinct priority (fun x y => x ≤ y) group.Containers _ hstop
      ((lowestPriority_sorted priority group).filter _) hd
    exact h.imp (fun hab => lt_of_le_of_ne hab.1 hab.2)

/-- C7 witness: the group of "b" (priority 5) and "a" (priority 10), both stopped and
nothing in flight: the start commands go to both members, in strictly descending
priority. -/
theorem start_stop_priority_order_witness :
    ∃ issued : List Container,
      (startContainers exPriority (exRuntime []) 0 exService
        ⟨"stack", [exDb false, exWeb false]⟩).2 =
        issued.map (fun m => ⟨.start, m.ID, exService.DockerClient.markStarting m.ID⟩) ∧
      issued.Perm [exDb false, exWeb false] ∧
      issued.Pairwise (fun a b => exPriority a > exPriority b) := by
  obtain ⟨issued, h1, h2, _, h4⟩ :=
    (start_stop_priority_order exPriority (exRuntime []) 0 exService
      ⟨"stack", [exDb false, exWeb false]⟩).1
  exact ⟨issued, h1, h2, h4 (by decide)⟩

/-! ### The container returned while a member is stopping -/

/-- C8 (the code at the failing input): "web" is served by container "a" of group "stack",
and the other member "b" is pending stop. `GetServiceContainer` succeeds with status
ShuttingDown and returns "b", which has no service name, not the container found for
"web". -/
theorem GetServiceContainer_returns_stopping_member :
    GetContainerByServiceName (exRuntime (exListing "running" "running")) "web" =
      .ok (exWeb true) ∧
    GetServiceContainer (exRuntime (exListing "running" "running")) ⟨[], [("b", ())]⟩ "web" =
      (.ok ⟨exDb true, .ShuttingDown⟩, []) ∧
    (exDb true).ServiceName ≠ "web" := by
  decide

/-! ### The recency map after a pass -/

/-- C9 (as stated, refuted): timeout 10, one entry for group "ghost" last accessed at 0,
no container labelled "ghost", a pass at 11: the entry's age exceeds the timeout and the
entry is still in the map after the pass. -/
theorem cleaner_keeps_unresolved_counterexample :
    (11 : Int) - 0 > 10 ∧
    GetContainerGroupByLabel (exRuntime (exListing "running" "running")) "ghost" =
      .err (.noContainersWithLabel "ghost") ∧
    InactiveContainersCleanerTick (fun _ => 0) (exRuntime (exListing "running" "running")) 11
        ⟨⟨[], []⟩, 10, [("ghost", 0)], []⟩ =
      .ok ⟨⟨⟨[], []⟩, 10, [("ghost", 0)], []⟩, [], []⟩ := by
  decide

/-- C9 (amended): after a pass at time `now`, with the listing available, every entry
older than the timeout whose group's membership resolves is removed from the map, whatever
the stop commands return; every entry older than the timeout whose group does not resolve,
and every entry not older than the timeout, is unchanged; no entry is added. -/
theorem cleaner_access_map (priority : Container → Int) (rt : Runtime) (now : Int)
    (s : ContainerService) (cs : List APIContainers)
    (hl : rt.ListContainers = .ok cs) (hnames : ∀ c ∈ cs, c.Names ≠ [])
    (hkeys : (SyncMap.keys s.accessTimeMap).Nodup) :
    ∃ st, InactiveContainersCleanerTick priority rt now s = .ok st ∧
      (∀ key t, SyncMap.Load s.accessTimeMap key = some t →
        now - t > s.InactivityTimeout →
        (∃ g, GetContainerGroupByLabel rt key = .ok g) →
        SyncMap.Load st.service.accessTimeMap key = none) ∧
      (∀ key t, SyncMap.Load s.accessTimeMap key = some t →
        now - t > s.InactivityTimeout →
        (∀ g, GetContainerGroupByLabel rt key ≠ .ok g) →
        SyncMap.Load st.service.accessTimeMap key = some t) ∧
      (∀ key t, SyncMap.Load s.accessTimeMap key = some t →
        ¬ now - t > s.InactivityTimeout →
        SyncMap.Load st.service.accessTimeMap key = some t) ∧
      (∀ key, SyncMap.Load s.accessTimeMap key = none →
        SyncMap.Load st.service.accessTimeMap key = none) := by
  obtain ⟨st, h1, _, h3, _⟩ := cleanerRange_ok priority rt now
    (GetContainerGroupByLabel_ne_panic rt cs hl hnames) s.accessTimeMap ⟨s, [], []⟩
  have hload : ∀ key, SyncMap.Load st.service.accessTimeMap key =
      if ∃ e ∈ s.accessTimeMap.filter
          (fun e => (sweptGroup rt now s.InactivityTimeout e).isSome), e.1 = key
      then none else SyncMap.Load s.accessTimeMap key := by
    intro key
    rw [h3]
    exact SyncMap.Load_foldl_Delete _ _ key
  have hkept : ∀ key t, SyncMap.Load s.accessTimeMap key = some t →
      (sweptGroup rt now s.InactivityTimeout (key, t)).isSome = false →
      SyncMap.Load st.service.accessTimeMap key = some t := by
    intro key t h0 hsw
    rw [hload key, if_neg, h0]
    rintro ⟨e, he, hk⟩
    obtain ⟨k, t2⟩ := e
    simp only at hk
    subst hk
    rw [List.mem_filter] at he
    have := SyncMap.Load_of_mem s.accessTimeMap k t2 hkeys he.1
    rw [this] at h0
    cases h0
    rw [hsw] at he
    exact absurd he.2 (by simp)
  refine ⟨st, h1, ?_, ?_, ?_, ?_⟩
  · rintro key t h0 hexp ⟨g, hg⟩
    rw [hload key, if_pos]
    refine ⟨(key, t), ?_, rfl⟩
    rw [List.mem_filter]
    exact ⟨SyncMap.mem_of_Load _ _ _ h0, by simp [sweptGroup, hexp, hg]⟩
  · intro key t h0 hexp hg
    apply hkept key t h0
    cases hres : GetContainerGroupByLabel rt key with
    | ok g => exact absurd hres (hg g)
    | err e => simp [sweptGroup, hexp, hres]
    | panic m => simp [sweptGroup, hexp, hres]
  · intro key t h0 hexp
    apply hkept key t h0
    simp [sweptGroup, hexp]
  · intro key h0
    rw [hload key, h0]
    simp

/-- C9 witness: timeout 10, entries "stack" (resolves) and "ghost" (does not) both last
accessed at 0, a pass at 11. -/
theorem cleaner_access_map_witness :
    ∃ st, InactiveContainersCleanerTick (fun _ => 0)
        (exRuntime (exListing "running" "running")) 11
        ⟨⟨[], []⟩, 10, [("stack", 0), ("ghost", 0)], []⟩ = .ok st ∧
      SyncMap.Load st.service.accessTimeMap "stack" = none ∧
      SyncMap.Load st.service.accessTimeMap "ghost" = some 0 := by
  obtain ⟨st, h1, h2, h3, _, _⟩ :=
    cleaner_access_map (fun _ => 0) (exRuntime (exListing "running" "running")) 11
      ⟨⟨[], []⟩, 10, [("stack", 0), ("ghost", 0)], []⟩ (exListing "running" "running") rfl
      (by decide) (by decide)
  exact ⟨st, h1,
    h2 "stack" 0 (by decide) (by decide) ⟨⟨"stack", [exWeb true, exDb true]⟩, by decide⟩,
    h3 "ghost" 0 (by decide) (by decide) (by
      intro g hg
      have h : GetContainerGroupByLabel (exRuntime (exListing "running" "running")) "ghost" =
          .err (.noContainersWithLabel "ghost") := by decide
      rw [h] at hg
      cases hg)⟩

/-! ### Service name and accessible port -/

theorem buildContainer_fields (container : APIContainers) (serviceName : String) (port : Int)
    (k : Container) (h : buildContainer container serviceName port = .ok k) :
    k.ServiceName = serviceName ∧ k.AccessiblePort = port := by
  unfold buildContainer at h
  split at h
  · cases h
  · cases h
    exact ⟨rfl, rfl⟩

theorem parseContainer_port (container : APIContainers) (k : Container)
    (h : parseContainer container = .ok k) (hp : k.AccessiblePort ≠ -1) :
    k.ServiceName ≠ "" := by
  unfold parseContainer at h
  simp only at h
  split at h
  · split at h
    · cases h
    · split at h
      · cases h
      · rename_i hs
        rw [(buildContainer_fields _ _ _ k h).1]
        exact hs
  · exact absurd (buildContainer_fields _ _ _ k h).2 hp

theorem collectGroup_mem (label : String) (cs : List APIContainers) (ms : List Container)
    (h : collectGroup label cs = .ok ms) :
    ∀ m ∈ ms, ∃ c ∈ cs, parseContainer c = .ok m := by
  induction cs generalizing ms with
  | nil =>
    simp only [collectGroup] at h
    cases h
    simp
  | cons c cs ih =>
    unfold collectGroup at h
    split at h
    · split at h
      · rename_i parsed hparsed
        split at h
        · rename_i more hmore
          cases h
          intro m hm
          rcases List.mem_cons.1 hm with rfl | hm
          · exact ⟨c, List.mem_cons_self _ _, hparsed⟩
          · obtain ⟨c2, hc2, hp2⟩ := ih more hmore m hm
            exact ⟨c2, List.mem_cons_of_mem _ hc2, hp2⟩
        · cases h
        · cases h
      · cases h
      · cases h
    · intro m hm
      obtain ⟨c2, hc2, hp2⟩ := ih ms h m hm
      exact ⟨c2, List.mem_cons_of_mem _ hc2, hp2⟩

theorem GetContainerGroupByLabel_mem (rt : Runtime) (label : String) (g : ContainerGroup)
    (h : GetContainerGroupByLabel rt label = .ok g) :
    ∀ m ∈ g.Containers, ∃ c, parseContainer c = .ok m := by
  unfold GetContainerGroupByLabel at h
  split at h
  · cases h
  · split at h
    · rename_i ms hms
      split at h
      · cases h
      · cases h
        intro m hm
        obtain ⟨c, _, hc⟩ := collectGroup_mem label _ ms hms m hm
        exact ⟨c, hc⟩
    · cases h
    · cases h

/-- C10 (as stated, refuted): a container labelled with the service name "db" and no port
label parses successfully with a non-empty `ServiceName` and `AccessiblePort = -1`. -/
theorem parseContainer_service_without_port_counterexample :
    parseContainer ⟨"b", ["/db"], "running",
        [(ContainerLabelGroupName, "stack"), (ContainerLabelServiceName, "db")]⟩ =
      .ok ⟨"b", "stack", "/db", "db", -1, true⟩ ∧
    ¬ ((⟨"b", "stack", "/db", "db", -1, true⟩ : Container).ServiceName ≠ "" ↔
      (⟨"b", "stack", "/db", "db", -1, true⟩ : Container).AccessiblePort ≠ -1) := by
  decide

/-- C10 (amended): every container successfully parsed by `parseContainer`, and hence
every member of every group returned by `GetContainerGroupByLabel`, that has an accessible
port (`AccessiblePort` is not -1) has a non-empty `ServiceName`. -/
theorem parsed_port_has_service_name :
    (∀ container k, parseContainer container = .ok k →
      k.AccessiblePort ≠ -1 → k.ServiceName ≠ "") ∧
    (∀ rt label g, GetContainerGroupByLabel rt label = .ok g →
      ∀ m ∈ g.Containers, m.AccessiblePort ≠ -1 → m.ServiceName ≠ "") := by
  refine ⟨parseContainer_port, ?_⟩
  intro rt label g hg m hm hp
  obtain ⟨c, hc⟩ := GetContainerGroupByLabel_mem rt label g hg m hm
  exact parseContainer_port c m hc hp

/-- C10 witness: the container "a" parses with port 8080 and the service name "web". -/
theorem parsed_port_has_service_name_witness : (exWeb true).ServiceName ≠ "" :=
  parsed_port_has_service_name.1 ⟨"a", ["/web"], "running", exWebLabels⟩ (exWeb true)
    (by decide) (by decide)

/-! ### The recency map after `startContainers` -/

theorem startContainersAt_still (priority : Container → Int) (rt : Runtime) (now : Int)
    (s : ContainerService) (group : ContainerGroup) :
    startContainersAt priority rt (fun _ => now) s group =
      startContainers priority rt now s group := rfl

theorem startFoldAt_map (rt : Runtime) (clock : Nat → Int) (groupName : String)
    (l : List Container) (acc : ContainerService × List RuntimeCall) :
    (l.foldl (startStepAt rt clock groupName) acc).1.DockerClient = acc.1.DockerClient ∧
    (l.filter (startEligible acc.1.DockerClient) = [] →
      (l.foldl (startStepAt rt clock groupName) acc).1.accessTimeMap = acc.1.accessTimeMap) ∧
    (l.filter (startEligible acc.1.DockerClient) ≠ [] →
      ∃ i, SyncMap.Load (l.foldl (startStepAt rt clock groupName) acc).1.accessTimeMap
        groupName = some (clock i)) := by
  induction l generalizing acc with
  | nil => simp
  | cons c l ih =>
    obtain ⟨h1, h2, h3⟩ := ih (startStepAt rt clock groupName acc c)
    simp only [List.foldl_cons]
    by_cases he : startEligible acc.1.DockerClient c = true
    · have hs : acc.1.DockerClient.IsContainerStarting c.ID = false := by
        simp only [startEligible, Bool.and_eq_true, Bool.not_eq_true'] at he
        exact he.1.2
      have hstep : startStepAt rt clock groupName acc c =
          ({ acc.1 with
              accessTimeMap := SyncMap.Store acc.1.accessTimeMap groupName (clock acc.2.length) },
            acc.2 ++ [⟨.start, c.ID, acc.1.DockerClient.markStarting c.ID⟩]) := by
        simp [startStepAt, he, StartContainer_not_pending rt _ _ hs]
      rw [hstep] at h1 h2 h3 ⊢
      refine ⟨h1, ?_, ?_⟩
      · intro hnil
        simp [List.filter_cons, he] at hnil
      · intro _
        by_cases hrest : l.filter (startEligible acc.1.DockerClient) = []
        · refine ⟨acc.2.length, ?_⟩
          rw [h2 hrest]
          exact SyncMap.Load_Store_self _ _ _
        · exact h3 hrest
    · have hstep : startStepAt rt clock groupName acc c = acc := by
        simp [startStepAt, he]
      rw [hstep] at h1 h2 h3 ⊢
      refine ⟨h1, ?_, ?_⟩
      · intro hnil
        apply h2
        simpa [List.filter_cons, he] using hnil
      · intro hne
        apply h3
        simpa [List.filter_cons, he] using hne

/-- C11 (as stated, refuted): group "stack" whose member "a" is not running while a start
of "a" is already in flight, the recency map empty, every clock reading 100:
`startContainers` returns without a runtime command and without an entry for "stack". -/
theorem startContainers_no_refresh_counterexample :
    startContainersAt exPriority (exRuntime []) (fun _ => 100) exStartingService
        ⟨"stack", [exWeb false, exDb true]⟩ = (exStartingService, []) ∧
    startContainers exPriority (exRuntime []) 100 exStartingService
        ⟨"stack", [exWeb false, exDb true]⟩ = (exStartingService, []) ∧
    SyncMap.Load
      (startContainersAt exPriority (exRuntime []) (fun _ => 100) exStartingService
        ⟨"stack", [exWeb false, exDb true]⟩).1.accessTimeMap "stack" = none := by
  decide

/-- C11 (amended): with every clock reading taken during the call not earlier than the
moment `invoked` of the invocation: when some member of the group is not running and has
no pending start or stop, the recency map after `startContainers` holds an entry for the
name of the group whose timestamp is not earlier than `invoked`; when there is no such
member, the recency map is left as it was. -/
theorem startContainers_refresh (priority : Container → Int) (rt : Runtime)
    (clock : Nat → Int) (invoked : Int) (s : ContainerService) (group : ContainerGroup)
    (hclock : ∀ i, invoked ≤ clock i) :
    ((∃ m ∈ group.Containers, startEligible s.DockerClient m = true) →
      ∃ t, SyncMap.Load (startContainersAt priority rt clock s group).1.accessTimeMap
        group.Name = some t ∧ invoked ≤ t) ∧
    ((∀ m ∈ group.Containers, startEligible s.DockerClient m = false) →
      (startContainersAt priority rt clock s group).1.accessTimeMap = s.accessTimeMap) := by
  have hmem : ∀ m, m ∈ group.GetContainersByHighestPriority priority ↔ m ∈ group.Containers :=
    fun m => (List.perm_insertionSort _ group.Containers).mem_iff
  obtain ⟨_, h2, h3⟩ := startFoldAt_map rt clock group.Name
    (group.GetContainersByHighestPriority priority) (s, [])
  constructor
  · rintro ⟨m, hm, he⟩
    have hne : (group.GetContainersByHighestPriority priority).filter
        (startEligible s.DockerClient) ≠ [] := by
      intro hnil
      have : m ∈ (group.GetContainersByHighestPriority priority).filter
          (startEligible s.DockerClient) := List.mem_filter.2 ⟨(hmem m).2 hm, he⟩
      rw [hnil] at this
      cases this
    obtain ⟨i, hi⟩ := h3 hne
    exact ⟨clock i, hi, hclock i⟩
  · intro hall
    apply h2
    rw [List.filter_eq_nil_iff]
    intro m hm
    simp [hall m ((hmem m).1 hm)]

/-- C11 witness: group "stack" with "a" stopped, nothing in flight, an empty recency map
and a clock that reads 100 + i after an invocation at 100. -/
theorem startContainers_refresh_witness :
    ∃ t, SyncMap.Load
        (startContainersAt exPriority (exRuntime []) (fun i => 100 + (i : Int)) exService
          ⟨"stack", [exWeb false, exDb true]⟩).1.accessTimeMap "stack" = some t ∧
      (100 : Int) ≤ t :=
  (startContainers_refresh exPriority (exRuntime []) (fun i => 100 + (i : Int)) 100 exService
    ⟨"stack", [exWeb false, exDb true]⟩ (fun i => by show (100 : Int) ≤ 100 + (i : Int); omega)).1
    ⟨exWeb false, by decide, by decide⟩
end SleepyContainers
